import Mathlib

/-!
Shallow embedding of the Zia Bot lead-qualification dialogue engine
(`src/server.js`, most advanced revision: the variant with audio transcription,
the JSON repair pipeline and the ManyChat admin notification).

Strings are Lean `String`s, but every text operation used by the engine
(trim, lower-casing, substring search, ...) is implemented over `List Char`
so that all definitions are executable and kernel-reducible.  External
collaborators (the OpenAI oracle, `JSON.parse`, audio transcription, the
notification transport, the Redis store) are parameters of the turn function;
store writes, oracle invocations and notification attempts are recorded as an
explicit event trace.
-/

namespace ZiaBot

/-! ## Character-level string helpers (JS semantics) -/

/-- Whitespace recognised by `String.prototype.trim`. -/
def isWhite (c : Char) : Bool :=
  c.toNat = 32 || c.toNat = 9 || c.toNat = 10 || c.toNat = 13 || c.toNat = 12 || c.toNat = 11

def trimChars (l : List Char) : List Char :=
  ((l.dropWhile isWhite).reverse.dropWhile isWhite).reverse

/-- `safeText(x)` from server.js: `String(x ?? "").trim()`. -/
def safeText (s : String) : String := String.mk (trimChars s.toList)

/-- `toLowerCase` (ASCII case folding suffices for every vocabulary used). -/
def lowerStr (s : String) : String := String.mk (s.toList.map Char.toLower)

/-- JS `String.prototype.includes` (substring containment). -/
def listInfixB (p : List Char) : List Char → Bool
  | [] => p.isEmpty
  | c :: rest => p.isPrefixOf (c :: rest) || listInfixB p rest

def strIncludes (s sub : String) : Bool := listInfixB sub.toList s.toList

/-- JS `String.prototype.startsWith`. -/
def strStartsWith (s p : String) : Bool := p.toList.isPrefixOf s.toList

/-! ## Conversation data model -/

inductive Role
  | user
  | assistant
deriving DecidableEq, Repr

structure Msg where
  role : Role
  content : String
deriving DecidableEq, Repr

/-- The persisted per-contact conversation state (`defaultMemory` shape). -/
structure Mem where
  sector : String
  servicio : String
  redes : String
  objetivo : String
  cerrado : Bool
  cierre_enviado : Bool
  pending : String
  history : List Msg
  admin_notified : Bool
deriving DecidableEq, Repr

/-- `defaultMemory()` from server.js. -/
def defaultMemory : Mem :=
  { sector := "", servicio := "", redes := "", objetivo := "", cerrado := false,
    cierre_enviado := false, pending := "sector", history := [], admin_notified := false }

/-- The state delta proposed by the oracle (`parsed.state`).  Slot fields that
the oracle omits behave like empty strings (`safeText(undefined) = ""`); the
boolean flags are `none` when the oracle did not supply a boolean-typed value
(the `typeof newState.cerrado === "boolean"` guard). -/
structure Delta where
  sector : String
  servicio : String
  redes : String
  objetivo : String
  cerrado : Option Bool
  cierre_enviado : Option Bool
  pending : String
deriving DecidableEq, Repr

/-- A successfully parsed oracle response (`{reply, state}`). -/
structure ParsedModel where
  reply : String
  state : Delta
deriving DecidableEq, Repr

/-! ## Heuristic classifiers -/

/-- `clampHistory(history, max)`: `history.slice(-max)` (the most recent `max`
entries; `slice(-0)` returns the whole array). -/
def clampHistory (history : List Msg) (max : Nat) : List Msg :=
  if max = 0 then history else history.drop (history.length - max)

/-- `looksLikeLinkOrHandle(t)` from server.js. -/
def looksLikeLinkOrHandle (t : String) : Bool :=
  strIncludes (safeText t) "@" ||
  strIncludes (lowerStr (safeText t)) "http" ||
  strIncludes (lowerStr (safeText t)) "www." ||
  strIncludes (lowerStr (safeText t)) ".com" ||
  strIncludes (lowerStr (safeText t)) ".do" ||
  strIncludes (lowerStr (safeText t)) "instagram" ||
  strIncludes (lowerStr (safeText t)) "tiktok" ||
  strIncludes (lowerStr (safeText t)) "wa.me"

/-- The denylist inside `looksLikeBusinessName`. -/
def blockedNames : List String :=
  ["hola", "buenas", "buenos dias", "buenas tardes", "buenas noches", "ok", "okay",
   "gracias", "mañana", "perfecto", "listo", "si", "sí", "no", "ambos", "ambas",
   "redes", "bot", "ventas", "leads", "reservas", "posicionamiento", "👍", "...", "..", "."]

/-- `looksLikeBusinessName(t)` from server.js. -/
def looksLikeBusinessName (t : String) : Bool :=
  if (safeText t).toList.length < 3 then false
  else !(blockedNames.contains (lowerStr (safeText t)))

def audioExts : List String := [".ogg", ".opus", ".mp3", ".m4a", ".wav", ".webm", ".aac"]

/-- `looksLikeAudioUrl(t)` from server.js. -/
def looksLikeAudioUrl (t : String) : Bool :=
  if lowerStr (safeText t) = "" then false
  else if !(strStartsWith (lowerStr (safeText t)) "http") then false
  else audioExts.any (fun ext => strIncludes (lowerStr (safeText t)) ext)

/-- The acknowledgment vocabulary of `isAck`. -/
def ackWords : List String :=
  ["ok", "okay", "gracias", "hola", "mañana", "perfecto", "listo", "👍"]

/-- `isAck(text)` from server.js. -/
def isAck (text : String) : Bool :=
  ackWords.contains (lowerStr (safeText text))

/-- `inferPending(mem)` from server.js (3-slot revision: sector, servicio, redes). -/
def inferPending (mem : Mem) : String :=
  if mem.sector = "" then "sector"
  else if mem.servicio = "" then "servicio"
  else if mem.redes = "" then "redes"
  else "none"

/-! ## JSON repair pipeline -/

def fenceJson : List Char := "```json".toList

def fencePlain : List Char := "```".toList

/-- Worker for `stripFences`, structurally recursive on a fuel bound (each
step consumes at least one character, so `l.length` fuel always suffices). -/
def stripFencesAux : Nat → List Char → List Char
  | _, [] => []
  | 0, l => l
  | fuel + 1, c :: rest =>
      if ((c :: rest).take 7).map Char.toLower = fenceJson then
        stripFencesAux fuel ((c :: rest).drop 7)
      else if (c :: rest).take 3 = fencePlain then
        stripFencesAux fuel ((c :: rest).drop 3)
      else
        c :: stripFencesAux fuel rest

/-- `s.replace(/```json|```/gi, "")`: remove every fence marker, matching
`"```json"` case-insensitively first, else `"```"`, scanning left to right. -/
def stripFences (l : List Char) : List Char := stripFencesAux l.length l

def lbrace : Char := '\x7b'

def rbrace : Char := '\x7d'

/-- JS `indexOf` (first occurrence). -/
def firstIdxOf (cs : List Char) (c : Char) : Option Nat :=
  match cs with
  | [] => none
  | a :: rest => if a = c then some 0 else (firstIdxOf rest c).map (· + 1)

/-- JS `lastIndexOf`. -/
def lastIdxOf (cs : List Char) (c : Char) : Option Nat :=
  match firstIdxOf cs.reverse c with
  | none => none
  | some i => some (cs.length - 1 - i)

/-- `extractFirstJsonObject(raw)` from server.js: trim, strip fence markers,
trim again, then slice from the first `{` to the last `}`. -/
def extractFirstJsonObject (raw : String) : String :=
  if safeText raw = "" then ""
  else
    match firstIdxOf (trimChars (stripFences (safeText raw).toList)) lbrace,
          lastIdxOf (trimChars (stripFences (safeText raw).toList)) rbrace with
    | some first, some last =>
        if last ≤ first then ""
        else String.mk (((trimChars (stripFences (safeText raw).toList)).drop first).take (last + 1 - first))
    | some _, none => ""
    | none, _ => ""

/-- `safeParseModelJson(raw)` from server.js; `jp` stands for the external
`JSON.parse` (`none` models a thrown parse exception). -/
def safeParseModelJson (jp : String → Option ParsedModel) (raw : String) : Option ParsedModel :=
  if safeText raw = "" then none
  else
    match jp (safeText raw) with
    | some v => some v
    | none =>
        if extractFirstJsonObject (safeText raw) = "" then none
        else jp (extractFirstJsonObject (safeText raw))

/-! ## Notification helpers -/

/-- `toDigits(x)` from server.js. -/
def toDigits (x : String) : String :=
  String.mk ((safeText x).toList.filter fun c => c.toNat ≥ 48 && c.toNat ≤ 57)

/-- `buildLeadSummary(...)` from server.js; `now` stands for the external
`new Date().toLocaleString()`. -/
def buildLeadSummary (now contactId sector servicio redes : String) : String :=
  "🆕 Nuevo lead (Zia Bot)\n" ++
  "📌 Negocio: " ++ (if safeText sector = "" then "-" else safeText sector) ++ "\n" ++
  "🤖 Automatizar: " ++ (if safeText servicio = "" then "-" else safeText servicio) ++ "\n" ++
  "📅 Citas/semana: " ++ (if safeText redes = "" then "-" else safeText redes) ++ "\n" ++
  "👤 WhatsApp: " ++
    (if toDigits contactId = "" then (if safeText contactId = "" then "-" else safeText contactId)
     else toDigits contactId) ++ "\n" ++
  (if toDigits contactId = "" then "" else "🔗 https://wa.me/" ++ toDigits contactId ++ "\n") ++
  "🕒 " ++ now

/-! ## State reconciliation -/

/-- One slot of the merge policy: `safeText(newState.x) || mem.x`. -/
def mergeSlot (proposed cur : String) : String :=
  if safeText proposed = "" then cur else safeText proposed

/-- Lines 1115–1122 of server.js: merge the oracle delta into memory. -/
def reconcile (mem : Mem) (d : Delta) : Mem :=
  { mem with
    sector := mergeSlot d.sector mem.sector
    servicio := mergeSlot d.servicio mem.servicio
    redes := mergeSlot d.redes mem.redes
    objetivo := mergeSlot d.objetivo mem.objetivo
    cerrado := d.cerrado.getD mem.cerrado
    cierre_enviado := d.cierre_enviado.getD mem.cierre_enviado }

/-- Reconciliation followed by the deterministic pending recomputation
(`mem.pending = inferPending(mem)`, line 1124). -/
def postState (mem : Mem) (d : Delta) : Mem :=
  { reconcile mem d with pending := inferPending (reconcile mem d) }

/-- `leadComplete` (line 1135): `!!(mem.sector && mem.servicio && mem.redes && mem.cierre_enviado)`. -/
def leadCompleteB (m : Mem) : Bool :=
  (m.sector != "") && (m.servicio != "") && (m.redes != "") && m.cierre_enviado

/-! ## Turn orchestration -/

/-- Inbound request: contact identity, user text, and the audio URL that
`getAudioUrl(req.body)` would extract from the body (empty when the body
carries no audio reference). -/
structure Req where
  contact_id : String
  user_text : String
  bodyAudioUrl : String

/-- External collaborators and per-turn environment: the transcription
service, `JSON.parse`, the raw primary and repair oracle outputs, whether the
ManyChat transport is configured (`canNotifyAdminViaManyChat()`), whether the
delivery call succeeds, and the wall-clock string. -/
structure Env where
  transcribe : String → String
  jparse : String → Option ParsedModel
  oracleRaw : String
  repairRaw : String
  canNotify : Bool
  sendOk : Bool
  now : String

/-- Observable side effects of one turn, in order: store read, oracle
invocation (with the history shown to it), store write, notification attempt. -/
inductive Ev
  | load (contactId : String)
  | oracle (shownHistory : List Msg)
  | save (m : Mem)
  | notify (summary : String)
deriving DecidableEq, Repr

structure TurnOut where
  reply : String
  trace : List Ev
deriving DecidableEq, Repr

def replyConfirmContact : String := "¿Me confirmas tu mensaje otra vez, porfa? 😊"

def replyBlank : String := "Se me quedó el mensaje en blanco 😅 ¿Me lo repites en una línea?"

def replyAudioFail : String :=
  "No pude escuchar bien la nota de voz 😅 ¿Me lo puedes mandar en texto o reenviar el audio más claro?"

def replyAck : String := "¡Listo! Ya quedó registrado 🙌 En breve te escribe un representante."

def replyFallback : String := "Se me fue la señal un momentito 😅 ¿Me repites eso en una línea, porfa?"

def replyEmptyModel : String := "¿Me repites eso en una línea, porfa? 😊"

/-- `safeText(parsed.reply) || "¿Me repites eso en una línea, porfa? 😊"`. -/
def replyOf (parsed : ParsedModel) : String :=
  if safeText parsed.reply = "" then replyEmptyModel else safeText parsed.reply

/-- The memory written by `saveMemory` on a successful parse: merge, pending
recomputation, then the 12-clamped history append of this turn's user message
and assistant reply. -/
def savedMem (userText reply : String) (mem2 : Mem) (d : Delta) : Mem :=
  { postState mem2 d with
    history := clampHistory ((postState mem2 d).history ++
      [⟨Role.user, userText⟩, ⟨Role.assistant, reply⟩]) 12 }

/-- Lines 1111–1160: reply extraction, state update, persistence, and the
completion/notification guard. -/
def finishTurn (env : Env) (contactId userText : String) (mem2 : Mem)
    (pre : List Ev) (parsed : ParsedModel) : TurnOut :=
  if leadCompleteB (savedMem userText (replyOf parsed) mem2 parsed.state) = true ∧
     (savedMem userText (replyOf parsed) mem2 parsed.state).admin_notified = false then
    if env.canNotify = true then
      ⟨replyOf parsed,
        pre ++ [Ev.save (savedMem userText (replyOf parsed) mem2 parsed.state),
          Ev.save { savedMem userText (replyOf parsed) mem2 parsed.state with admin_notified := true },
          Ev.notify (buildLeadSummary env.now contactId
            (savedMem userText (replyOf parsed) mem2 parsed.state).sector
            (savedMem userText (replyOf parsed) mem2 parsed.state).servicio
            (savedMem userText (replyOf parsed) mem2 parsed.state).redes)]⟩
    else
      ⟨replyOf parsed,
        pre ++ [Ev.save (savedMem userText (replyOf parsed) mem2 parsed.state),
          Ev.save { savedMem userText (replyOf parsed) mem2 parsed.state with admin_notified := true }]⟩
  else
    ⟨replyOf parsed, pre ++ [Ev.save (savedMem userText (replyOf parsed) mem2 parsed.state)]⟩

/-- Lines 1069–1109: primary oracle call, parse, one repair retry, fallback. -/
def oracleStage (env : Env) (contactId userText : String) (mem2 : Mem) : TurnOut :=
  match safeParseModelJson env.jparse env.oracleRaw with
  | some parsed =>
      finishTurn env contactId userText mem2
        [Ev.load contactId, Ev.oracle (clampHistory mem2.history 10)] parsed
  | none =>
      match safeParseModelJson env.jparse env.repairRaw with
      | some parsed =>
          finishTurn env contactId userText mem2
            [Ev.load contactId, Ev.oracle (clampHistory mem2.history 10), Ev.oracle []] parsed
      | none =>
          ⟨replyFallback,
            [Ev.load contactId, Ev.oracle (clampHistory mem2.history 10), Ev.oracle []]⟩

/-- `mem.pending = inferPending(mem)` right after `loadMemory` (line 1034). -/
def withPending (mem0 : Mem) : Mem := { mem0 with pending := inferPending mem0 }

/-- Lines 1042–1047: heuristic pre-fill of the `redes` slot. -/
def preFill (userText : String) (mem1 : Mem) : Mem :=
  if mem1.pending = "redes" ∧ mem1.redes = "" ∧
     (looksLikeLinkOrHandle userText || looksLikeBusinessName userText) = true then
    { mem1 with
      redes := userText
      pending := inferPending { mem1 with redes := userText } }
  else mem1

/-- Lines 1032–1047 plus the oracle stage: load memory, recompute pending,
acknowledgment short-circuit, heuristic pre-fill, then the oracle. -/
def memStage (env : Env) (contactId userText : String) (stored : Option Mem) : TurnOut :=
  if (withPending (stored.getD defaultMemory)).cierre_enviado = true ∧ isAck userText = true then
    ⟨replyAck, [Ev.load contactId]⟩
  else
    oracleStage env contactId userText (preFill userText (withPending (stored.getD defaultMemory)))

/-- Lines 1007–1012: which audio URL (if any) this request carries. -/
def computeAudioUrl (userText0 bodyAudioUrl : String) : String :=
  if looksLikeAudioUrl userText0 = true then userText0
  else if userText0 = "" then safeText bodyAudioUrl else ""

/-- One full `/mc/reply` turn (the body of the POST handler, after auth). -/
def turn (env : Env) (req : Req) (stored : Option Mem) : TurnOut :=
  if safeText req.contact_id = "" then ⟨replyConfirmContact, []⟩
  else if computeAudioUrl (safeText req.user_text) req.bodyAudioUrl = "" then
    if safeText req.user_text = "" then ⟨replyBlank, []⟩
    else memStage env (safeText req.contact_id) (safeText req.user_text) stored
  else if safeText (env.transcribe (computeAudioUrl (safeText req.user_text) req.bodyAudioUrl)) = "" then
    ⟨replyAudioFail, []⟩
  else
    memStage env (safeText req.contact_id)
      (safeText (env.transcribe (computeAudioUrl (safeText req.user_text) req.bodyAudioUrl))) stored

/-! ## Trace observers and multi-turn runs -/

def isNotifyEv : Ev → Bool
  | Ev.notify _ => true
  | _ => false

def isOracleEv : Ev → Bool
  | Ev.oracle _ => true
  | _ => false

def evSaved : Ev → Option Mem
  | Ev.save m => some m
  | _ => none

def evShown : Ev → Option (List Msg)
  | Ev.oracle h => some h
  | _ => none

def notifyCount (tr : List Ev) : Nat := tr.countP isNotifyEv

def oracleCount (tr : List Ev) : Nat := tr.countP isOracleEv

def hasNotify (tr : List Ev) : Bool := tr.any isNotifyEv

def saveStates (tr : List Ev) : List Mem := tr.filterMap evSaved

def shownHistories (tr : List Ev) : List (List Msg) := tr.filterMap evShown

/-- The state the store holds after a turn: the last write, else unchanged. -/
def stepMem (stored : Option Mem) (tr : List Ev) : Option Mem :=
  match (saveStates tr).getLast? with
  | some m => some m
  | none => stored

structure TurnIn where
  env : Env
  req : Req

/-- Concatenated event trace of a sequence of turns for one contact, each turn
reading the state the previous turn left in the store. -/
def runTurns (inputs : List TurnIn) (stored : Option Mem) : List Ev :=
  match inputs with
  | [] => []
  | i :: rest =>
      (turn i.env i.req stored).trace ++
        runTurns rest (stepMem stored (turn i.env i.req stored).trace)

/-- Whether the store already records the admin notification for this contact. -/
def storedNotified (stored : Option Mem) : Bool :=
  (stored.getD defaultMemory).admin_notified

/-! ## Spec-side definitions -/

def slotOrder : List String := ["sector", "servicio", "redes"]

def slotValue (mem : Mem) : String → String
  | "sector" => mem.sector
  | "servicio" => mem.servicio
  | "redes" => mem.redes
  | "objetivo" => mem.objetivo
  | _ => ""

/-- Modelled from the spec (§4.2): the first slot in the declared order with an
empty value, else `"none"`.  Used to compare `inferPending` against its
specification. -/
def firstEmptySlot (order : List String) (mem : Mem) : String :=
  match order with
  | [] => "none"
  | n :: rest => if slotValue mem n = "" then n else firstEmptySlot rest mem

/-! ## Concrete scenarios (used by witnesses and counterexamples) -/

/-- An oracle delta that fills the three required slots and reports the closing
as sent, while leaving `cerrado` untyped (absent from the JSON). -/
def deltaFull : Delta :=
  { sector := "clinica dental", servicio := "citas", redes := "5", objetivo := "",
    cerrado := none, cierre_enviado := some true, pending := "" }

def pmFull : ParsedModel := { reply := "listo", state := deltaFull }

/-- Environment whose oracle answers `pmFull` and whose transport is configured. -/
def envLead : Env :=
  { transcribe := fun _ => "", jparse := fun _ => some pmFull, oracleRaw := "x",
    repairRaw := "", canNotify := true, sendOk := true, now := "t" }

/-- Same as `envLead` but with the notification transport unconfigured. -/
def envLeadOff : Env :=
  { transcribe := fun _ => "", jparse := fun _ => some pmFull, oracleRaw := "x",
    repairRaw := "", canNotify := false, sendOk := true, now := "t" }

/-- Environment whose oracle output never parses (both calls). -/
def envBadJson : Env :=
  { transcribe := fun _ => "", jparse := fun _ => none, oracleRaw := "prose prose",
    repairRaw := "more prose", canNotify := true, sendOk := true, now := "t" }

def reqLead : Req := { contact_id := "18091234567", user_text := "dental", bodyAudioUrl := "" }

def reqAck : Req := { contact_id := "123", user_text := "ok", bodyAudioUrl := "" }

def reqNoContact : Req := { contact_id := "  ", user_text := "hola", bodyAudioUrl := "" }

def reqEmptyText : Req := { contact_id := "123", user_text := "   ", bodyAudioUrl := "" }

/-- A closed conversation state (closing already sent and notified). -/
def memClosed : Mem :=
  { sector := "spa", servicio := "citas", redes := "15", objetivo := "calificado",
    cerrado := true, cierre_enviado := true, pending := "none", history := [],
    admin_notified := true }

/-- The state the turn of `envLead`/`reqLead` persists before the notification
flag is set. -/
def memLead5 : Mem :=
  { sector := "clinica dental", servicio := "citas", redes := "5", objetivo := "",
    cerrado := false, cierre_enviado := true, pending := "none",
    history := [⟨Role.user, "dental"⟩, ⟨Role.assistant, "listo"⟩],
    admin_notified := false }

/-- A `JSON.parse` stand-in that only accepts the exact text `{a}`. -/
def jpBrace : String → Option ParsedModel :=
  fun s => if s = "\x7ba\x7d" then some pmFull else none

def rawBrace : String := "x \x7ba\x7d y"

/-- Whether every state persisted in a trace has `cerrado = false`. -/
def allSavesNotCerrado (tr : List Ev) : Bool :=
  (saveStates tr).all fun m => !m.cerrado

/-! ## Helper lemmas: projections of the state pipeline -/

@[simp]
theorem isNotifyEv_load (c : String) : isNotifyEv (Ev.load c) = false := rfl

@[simp]
theorem isNotifyEv_oracle (h : List Msg) : isNotifyEv (Ev.oracle h) = false := rfl

@[simp]
theorem isNotifyEv_save (m : Mem) : isNotifyEv (Ev.save m) = false := rfl

@[simp]
theorem isNotifyEv_notify (s : String) : isNotifyEv (Ev.notify s) = true := rfl

@[simp]
theorem isOracleEv_load (c : String) : isOracleEv (Ev.load c) = false := rfl

@[simp]
theorem isOracleEv_oracle (h : List Msg) : isOracleEv (Ev.oracle h) = true := rfl

@[simp]
theorem isOracleEv_save (m : Mem) : isOracleEv (Ev.save m) = false := rfl

@[simp]
theorem isOracleEv_notify (s : String) : isOracleEv (Ev.notify s) = false := rfl

@[simp]
theorem evSaved_load (c : String) : evSaved (Ev.load c) = none := rfl

@[simp]
theorem evSaved_oracle (h : List Msg) : evSaved (Ev.oracle h) = none := rfl

@[simp]
theorem evSaved_save (m : Mem) : evSaved (Ev.save m) = some m := rfl

@[simp]
theorem evSaved_notify (s : String) : evSaved (Ev.notify s) = none := rfl

@[simp]
theorem evShown_load (c : String) : evShown (Ev.load c) = none := rfl

@[simp]
theorem evShown_oracle (h : List Msg) : evShown (Ev.oracle h) = some h := rfl

@[simp]
theorem evShown_save (m : Mem) : evShown (Ev.save m) = none := rfl

@[simp]
theorem evShown_notify (s : String) : evShown (Ev.notify s) = none := rfl

theorem preFill_history (u : String) (m : Mem) : (preFill u m).history = m.history := by
  unfold preFill; split <;> rfl

theorem preFill_admin (u : String) (m : Mem) :
    (preFill u m).admin_notified = m.admin_notified := by
  unfold preFill; split <;> rfl

theorem preFill_cierre (u : String) (m : Mem) :
    (preFill u m).cierre_enviado = m.cierre_enviado := by
  unfold preFill; split <;> rfl

theorem savedMem_admin (u r : String) (m : Mem) (d : Delta) :
    (savedMem u r m d).admin_notified = m.admin_notified := rfl

theorem savedMem_history (u r : String) (m : Mem) (d : Delta) :
    (savedMem u r m d).history =
      clampHistory (m.history ++ [⟨Role.user, u⟩, ⟨Role.assistant, r⟩]) 12 := rfl

theorem inferPending_eq_of_slots (m m' : Mem) (h1 : m.sector = m'.sector)
    (h2 : m.servicio = m'.servicio) (h3 : m.redes = m'.redes) :
    inferPending m = inferPending m' := by
  unfold inferPending; rw [h1, h2, h3]

theorem savedMem_pending (u r : String) (m : Mem) (d : Delta) :
    (savedMem u r m d).pending = inferPending (savedMem u r m d) := by
  have h : (savedMem u r m d).pending = inferPending (reconcile m d) := rfl
  rw [h]
  exact inferPending_eq_of_slots _ _ rfl rfl rfl

theorem clampHistory_suffix (l : List Msg) (n : Nat) : clampHistory l n <:+ l := by
  unfold clampHistory; split
  · exact List.suffix_refl l
  · exact List.drop_suffix _ l

theorem clampHistory_length_le (l : List Msg) (n : Nat) (h : n ≠ 0) :
    (clampHistory l n).length ≤ n := by
  unfold clampHistory
  rw [if_neg h]
  simp only [List.length_drop]
  omega

theorem clampHistory_append_two (l : List Msg) (a b : Msg) :
    clampHistory (l ++ [a, b]) 12 = l.drop ((l.length + 2) - 12) ++ [a, b] := by
  unfold clampHistory
  rw [if_neg (by omega)]
  have hlen : (l ++ [a, b]).length = l.length + 2 := by simp
  rw [hlen]
  exact List.drop_append_of_le_length (by omega)

/-! ## Helper lemmas: acknowledgment vocabulary -/

theorem ackWords_cases (w : String) (h : ackWords.contains w = true) :
    w = "ok" ∨ w = "okay" ∨ w = "gracias" ∨ w = "hola" ∨ w = "mañana" ∨
    w = "perfecto" ∨ w = "listo" ∨ w = "👍" := by
  have hm : w ∈ ackWords := List.mem_of_elem_eq_true h
  simpa [ackWords] using hm

theorem isAck_ne_empty (t : String) (h : isAck t = true) : safeText t ≠ "" := by
  intro he
  unfold isAck at h
  rw [he] at h
  exact absurd h (by decide)

theorem isAck_not_audio (t : String) (h : isAck t = true) : looksLikeAudioUrl t = false := by
  unfold isAck at h
  have hm := ackWords_cases _ h
  unfold looksLikeAudioUrl
  rcases hm with hw|hw|hw|hw|hw|hw|hw|hw <;> rw [hw] <;> decide

/-! ## Helper lemmas: branch structure of a turn -/

theorem turn_effects (env : Env) (req : Req) (stored : Option Mem) :
    turn env req stored = ⟨replyConfirmContact, []⟩ ∨
    turn env req stored = ⟨replyBlank, []⟩ ∨
    turn env req stored = ⟨replyAudioFail, []⟩ ∨
    (∃ u, u ≠ "" ∧
      turn env req stored = memStage env (safeText req.contact_id) u stored) := by
  unfold turn
  by_cases h1 : safeText req.contact_id = ""
  · left; rw [if_pos h1]
  · rw [if_neg h1]
    by_cases h2 : computeAudioUrl (safeText req.user_text) req.bodyAudioUrl = ""
    · rw [if_pos h2]
      by_cases h3 : safeText req.user_text = ""
      · right; left; rw [if_pos h3]
      · right; right; right
        exact ⟨safeText req.user_text, h3, by rw [if_neg h3]⟩
    · rw [if_neg h2]
      by_cases h4 :
          safeText (env.transcribe (computeAudioUrl (safeText req.user_text) req.bodyAudioUrl)) = ""
      · right; right; left; rw [if_pos h4]
      · right; right; right
        exact ⟨_, h4, by rw [if_neg h4]⟩

theorem memStage_effects (env : Env) (c u : String) (stored : Option Mem) :
    memStage env c u stored = ⟨replyAck, [Ev.load c]⟩ ∨
    memStage env c u stored =
      oracleStage env c u (preFill u (withPending (stored.getD defaultMemory))) := by
  unfold memStage; split
  · left; rfl
  · right; rfl

theorem oracleStage_effects (env : Env) (c u : String) (mem2 : Mem) :
    (safeParseModelJson env.jparse env.oracleRaw = none ∧
     safeParseModelJson env.jparse env.repairRaw = none ∧
     oracleStage env c u mem2 =
       ⟨replyFallback, [Ev.load c, Ev.oracle (clampHistory mem2.history 10), Ev.oracle []]⟩) ∨
    (∃ p, safeParseModelJson env.jparse env.oracleRaw = some p ∧
      oracleStage env c u mem2 =
        finishTurn env c u mem2 [Ev.load c, Ev.oracle (clampHistory mem2.history 10)] p) ∨
    (∃ p, safeParseModelJson env.jparse env.oracleRaw = none ∧
      safeParseModelJson env.jparse env.repairRaw = some p ∧
      oracleStage env c u mem2 =
        finishTurn env c u mem2
          [Ev.load c, Ev.oracle (clampHistory mem2.history 10), Ev.oracle []] p) := by
  unfold oracleStage
  cases hp : safeParseModelJson env.jparse env.oracleRaw with
  | some p => right; left; exact ⟨p, rfl, rfl⟩
  | none =>
    cases hr : safeParseModelJson env.jparse env.repairRaw with
    | some p => right; right; exact ⟨p, rfl, rfl, rfl⟩
    | none => left; exact ⟨rfl, rfl, rfl⟩

theorem finishTurn_effects (env : Env) (c u : String) (mem2 : Mem) (pre : List Ev)
    (p : ParsedModel) :
    (¬(leadCompleteB (savedMem u (replyOf p) mem2 p.state) = true ∧
       (savedMem u (replyOf p) mem2 p.state).admin_notified = false) ∧
      finishTurn env c u mem2 pre p =
        ⟨replyOf p, pre ++ [Ev.save (savedMem u (replyOf p) mem2 p.state)]⟩) ∨
    ((leadCompleteB (savedMem u (replyOf p) mem2 p.state) = true ∧
      (savedMem u (replyOf p) mem2 p.state).admin_notified = false) ∧ env.canNotify = true ∧
      finishTurn env c u mem2 pre p =
        ⟨replyOf p, pre ++ [Ev.save (savedMem u (replyOf p) mem2 p.state),
          Ev.save { savedMem u (replyOf p) mem2 p.state with admin_notified := true },
          Ev.notify (buildLeadSummary env.now c (savedMem u (replyOf p) mem2 p.state).sector
            (savedMem u (replyOf p) mem2 p.state).servicio
            (savedMem u (replyOf p) mem2 p.state).redes)]⟩) ∨
    ((leadCompleteB (savedMem u (replyOf p) mem2 p.state) = true ∧
      (savedMem u (replyOf p) mem2 p.state).admin_notified = false) ∧ env.canNotify = false ∧
      finishTurn env c u mem2 pre p =
        ⟨replyOf p, pre ++ [Ev.save (savedMem u (replyOf p) mem2 p.state),
          Ev.save { savedMem u (replyOf p) mem2 p.state with admin_notified := true }]⟩) := by
  by_cases h : leadCompleteB (savedMem u (replyOf p) mem2 p.state) = true ∧
      (savedMem u (replyOf p) mem2 p.state).admin_notified = false
  · by_cases hc : env.canNotify = true
    · right; left
      exact ⟨h, hc, by unfold finishTurn; rw [if_pos h, if_pos hc]⟩
    · right; right
      refine ⟨h, by simpa using hc, ?_⟩
      unfold finishTurn; rw [if_pos h, if_neg hc]
  · left
    exact ⟨h, by unfold finishTurn; rw [if_neg h]⟩

theorem mergeSlot_cases (p cur : String) :
    (safeText p ≠ "" → mergeSlot p cur = safeText p) ∧
    (safeText p = "" → mergeSlot p cur = cur) ∧
    (cur ≠ "" → mergeSlot p cur ≠ "") := by
  unfold mergeSlot
  by_cases h : safeText p = ""
  · rw [if_pos h]
    exact ⟨fun hc => absurd h hc, fun _ => rfl, fun hc => hc⟩
  · rw [if_neg h]
    exact ⟨fun _ => rfl, fun he => absurd he h, fun _ => h⟩

theorem firstIdxOf_eq_none (cs : List Char) (c : Char) (h : c ∉ cs) :
    firstIdxOf cs c = none := by
  induction cs with
  | nil => rfl
  | cons a rest ih =>
      unfold firstIdxOf
      rw [if_neg (by intro he; exact h (he ▸ List.mem_cons_self a rest))]
      rw [ih (fun hm => h (List.mem_cons_of_mem a hm))]
      rfl

theorem lastIdxOf_eq_none (cs : List Char) (c : Char) (h : c ∉ cs) :
    lastIdxOf cs c = none := by
  unfold lastIdxOf
  rw [firstIdxOf_eq_none cs.reverse c (by simpa using h)]

/-! ## Claims -/

/-- C4: slot reconciliation is monotonic: every slot takes the oracle delta's
value when it is non-empty after trimming, else keeps the current value (so a
non-empty slot is never erased), and the `cerrado`/`cierre_enviado` flags are
taken from the delta only when it provides a boolean-typed value, else
retained from the current state. -/
theorem C4_reconcile_monotonic (mem : Mem) (d : Delta) :
    ((safeText d.sector ≠ "" → (reconcile mem d).sector = safeText d.sector) ∧
     (safeText d.sector = "" → (reconcile mem d).sector = mem.sector) ∧
     (mem.sector ≠ "" → (reconcile mem d).sector ≠ "")) ∧
    ((safeText d.servicio ≠ "" → (reconcile mem d).servicio = safeText d.servicio) ∧
     (safeText d.servicio = "" → (reconcile mem d).servicio = mem.servicio) ∧
     (mem.servicio ≠ "" → (reconcile mem d).servicio ≠ "")) ∧
    ((safeText d.redes ≠ "" → (reconcile mem d).redes = safeText d.redes) ∧
     (safeText d.redes = "" → (reconcile mem d).redes = mem.redes) ∧
     (mem.redes ≠ "" → (reconcile mem d).redes ≠ "")) ∧
    ((safeText d.objetivo ≠ "" → (reconcile mem d).objetivo = safeText d.objetivo) ∧
     (safeText d.objetivo = "" → (reconcile mem d).objetivo = mem.objetivo) ∧
     (mem.objetivo ≠ "" → (reconcile mem d).objetivo ≠ "")) ∧
    ((∀ b, d.cerrado = some b → (reconcile mem d).cerrado = b) ∧
     (d.cerrado = none → (reconcile mem d).cerrado = mem.cerrado)) ∧
    ((∀ b, d.cierre_enviado = some b → (reconcile mem d).cierre_enviado = b) ∧
     (d.cierre_enviado = none → (reconcile mem d).cierre_enviado = mem.cierre_enviado)) := by
  refine ⟨mergeSlot_cases _ _, mergeSlot_cases _ _, mergeSlot_cases _ _, mergeSlot_cases _ _,
    ⟨?_, ?_⟩, ⟨?_, ?_⟩⟩
  · intro b hb; show d.cerrado.getD mem.cerrado = b; rw [hb]; rfl
  · intro hn; show d.cerrado.getD mem.cerrado = mem.cerrado; rw [hn]; rfl
  · intro b hb; show d.cierre_enviado.getD mem.cierre_enviado = b; rw [hb]; rfl
  · intro hn; show d.cierre_enviado.getD mem.cierre_enviado = mem.cierre_enviado; rw [hn]; rfl

theorem C4_reconcile_monotonic_witness :
    (reconcile memClosed deltaFull).sector = safeText deltaFull.sector ∧
    (reconcile memClosed deltaFull).objetivo = memClosed.objetivo ∧
    (reconcile memClosed deltaFull).cerrado = memClosed.cerrado ∧
    (reconcile memClosed deltaFull).cierre_enviado = true :=
  ⟨(C4_reconcile_monotonic memClosed deltaFull).1.1 (by decide),
   (C4_reconcile_monotonic memClosed deltaFull).2.2.2.1.2.1 (by decide),
   (C4_reconcile_monotonic memClosed deltaFull).2.2.2.2.1.2 rfl,
   (C4_reconcile_monotonic memClosed deltaFull).2.2.2.2.2.1 true rfl⟩

/-- C8: the parse pipeline tries the raw oracle text first (first success
wins), then the fence-stripped substring from the first brace to the last
brace, and returns no object when the trimmed text is empty, when no such
brace pair exists, or when both parses fail. -/
theorem C8_parse_pipeline (jp : String → Option ParsedModel) (raw : String) :
    (safeText raw = "" → safeParseModelJson jp raw = none) ∧
    (safeText raw ≠ "" → ∀ v, jp (safeText raw) = some v → safeParseModelJson jp raw = some v) ∧
    (safeText raw ≠ "" → jp (safeText raw) = none →
      extractFirstJsonObject (safeText raw) ≠ "" →
      safeParseModelJson jp raw = jp (extractFirstJsonObject (safeText raw))) ∧
    (jp (safeText raw) = none → extractFirstJsonObject (safeText raw) = "" →
      safeParseModelJson jp raw = none) ∧
    (jp (safeText raw) = none → jp (extractFirstJsonObject (safeText raw)) = none →
      safeParseModelJson jp raw = none) ∧
    (∀ s : String, lbrace ∉ trimChars (stripFences (safeText s).toList) →
      extractFirstJsonObject s = "") ∧
    (∀ s : String, rbrace ∉ trimChars (stripFences (safeText s).toList) →
      extractFirstJsonObject s = "") := by
  refine ⟨?_, ?_, ?_, ?_, ?_, ?_, ?_⟩
  · intro h; unfold safeParseModelJson; rw [if_pos h]
  · intro hne v hv; unfold safeParseModelJson; rw [if_neg hne, hv]
  · intro hne hn hext; unfold safeParseModelJson; rw [if_neg hne, hn, if_neg hext]
  · intro hn hext
    unfold safeParseModelJson
    by_cases hne : safeText raw = ""
    · rw [if_pos hne]
    · rw [if_neg hne, hn, if_pos hext]
  · intro hn hcand
    unfold safeParseModelJson
    by_cases hne : safeText raw = ""
    · rw [if_pos hne]
    · rw [if_neg hne, hn]
      by_cases hext : extractFirstJsonObject (safeText raw) = ""
      · rw [if_pos hext]
      · rw [if_neg hext, hcand]
  · intro s h
    unfold extractFirstJsonObject
    by_cases hne : safeText s = ""
    · rw [if_pos hne]
    · rw [if_neg hne, firstIdxOf_eq_none _ _ h]
  · intro s h
    unfold extractFirstJsonObject
    by_cases hne : safeText s = ""
    · rw [if_pos hne]
    · rw [if_neg hne, lastIdxOf_eq_none _ _ h]
      cases firstIdxOf (trimChars (stripFences (safeText s).toList)) lbrace <;> rfl

theorem C8_parse_pipeline_witness :
    safeParseModelJson jpBrace rawBrace = jpBrace (extractFirstJsonObject (safeText rawBrace)) ∧
    safeParseModelJson jpBrace rawBrace = some pmFull :=
  ⟨(C8_parse_pipeline jpBrace rawBrace).2.2.1 (by decide) (by decide) (by decide),
   by rw [(C8_parse_pipeline jpBrace rawBrace).2.2.1 (by decide) (by decide) (by decide)]; decide⟩

/-- C5: `inferPending` is a pure deterministic function of the slot values and
the declared slot order (first empty slot in order, else "none"), independent
of the stored pending field; the state update ignores the oracle's proposed
pending, and every state a turn persists has `pending = inferPending` of its
own (post-merge) slots. -/
theorem C5_inferPending_authoritative :
    (∀ mem : Mem, inferPending mem = firstEmptySlot slotOrder mem) ∧
    (∀ (mem : Mem) (p : String), inferPending { mem with pending := p } = inferPending mem) ∧
    (∀ (mem : Mem) (d : Delta) (q : String),
      postState mem { d with pending := q } = postState mem d) ∧
    (∀ (env : Env) (req : Req) (stored : Option Mem),
      ∀ m ∈ saveStates (turn env req stored).trace, m.pending = inferPending m) := by
  refine ⟨fun mem => rfl, fun mem p => rfl, fun mem d q => rfl, ?_⟩
  intro env req stored m hm
  rcases turn_effects env req stored with h|h|h|⟨u, -, h⟩
  · rw [h] at hm; simp [saveStates] at hm
  · rw [h] at hm; simp [saveStates] at hm
  · rw [h] at hm; simp [saveStates] at hm
  · rw [h] at hm
    rcases memStage_effects env (safeText req.contact_id) u stored with h2|h2
    · rw [h2] at hm; simp [saveStates] at hm
    · rw [h2] at hm
      rcases oracleStage_effects env (safeText req.contact_id) u
          (preFill u (withPending (stored.getD defaultMemory))) with
        ⟨-, -, h3⟩|⟨p, -, h3⟩|⟨p, -, -, h3⟩
      · rw [h3] at hm; simp [saveStates] at hm
      all_goals (
        rw [h3] at hm
        have hpend := savedMem_pending u (replyOf p)
          (preFill u (withPending (stored.getD defaultMemory))) p.state
        rcases finishTurn_effects env (safeText req.contact_id) u
            (preFill u (withPending (stored.getD defaultMemory))) _ p with
          ⟨-, h4⟩|⟨-, -, h4⟩|⟨-, -, h4⟩ <;>
          rw [h4] at hm <;>
          simp only [saveStates, List.filterMap_append, List.filterMap_cons, List.filterMap_nil,
            evSaved_load, evSaved_oracle, evSaved_save, evSaved_notify, List.mem_append,
            List.mem_cons, List.not_mem_nil, or_false, false_or, List.mem_singleton] at hm <;>
          first
          | (rw [hm]; exact hpend)
          | (rcases hm with hm|hm <;> rw [hm] <;> exact hpend))

theorem C5_inferPending_authoritative_witness :
    memLead5.pending = inferPending memLead5 :=
  C5_inferPending_authoritative.2.2.2 envLead reqLead none memLead5 (by decide)

/-- C6: for every stored state whose closing has been sent and every input
text in the acknowledgment vocabulary, the turn returns the fixed closing
acknowledgment reply without invoking the oracle and without writing the
store, so all slot values and the notified flag are unchanged. -/
theorem C6_ack_short_circuit (env : Env) (req : Req) (stored : Option Mem)
    (hc : safeText req.contact_id ≠ "")
    (ha : isAck (safeText req.user_text) = true)
    (hs : (stored.getD defaultMemory).cierre_enviado = true) :
    turn env req stored = ⟨replyAck, [Ev.load (safeText req.contact_id)]⟩ := by
  have hne := isAck_ne_empty _ ha
  have hau := isAck_not_audio _ ha
  have hne' : safeText req.user_text ≠ "" := by
    intro h0
    exact hne (by rw [h0]; rfl)
  have hurl : computeAudioUrl (safeText req.user_text) req.bodyAudioUrl = "" := by
    unfold computeAudioUrl
    rw [hau, if_neg Bool.false_ne_true, if_neg hne']
  unfold turn
  rw [if_neg hc, if_pos hurl, if_neg hne']
  unfold memStage
  rw [if_pos ⟨hs, ha⟩]

theorem C6_ack_short_circuit_witness :
    turn envLead reqAck (some memClosed) = ⟨replyAck, [Ev.load (safeText reqAck.contact_id)]⟩ :=
  C6_ack_short_circuit envLead reqAck (some memClosed) (by decide) (by decide) (by decide)

/-- C9: input-error turns are pure replies: an empty contact identity, or an
empty user text with no audio reference, yields a fixed clarifying reply with
an empty event trace — no store read-modify-write, no oracle call, no
notification. -/
theorem C9_input_errors_pure (env : Env) (req : Req) (stored : Option Mem) :
    (safeText req.contact_id = "" → turn env req stored = ⟨replyConfirmContact, []⟩) ∧
    (safeText req.contact_id ≠ "" → safeText req.user_text = "" →
      safeText req.bodyAudioUrl = "" → turn env req stored = ⟨replyBlank, []⟩) := by
  constructor
  · intro h
    unfold turn
    rw [if_pos h]
  · intro hc ht hb
    have hurl : computeAudioUrl (safeText req.user_text) req.bodyAudioUrl = "" := by
      unfold computeAudioUrl
      rw [ht, if_neg (by decide), if_pos rfl]
      exact hb
    unfold turn
    rw [if_neg hc, if_pos hurl, if_pos ht]

theorem C9_input_errors_pure_witness :
    turn envLead reqNoContact none = ⟨replyConfirmContact, []⟩ ∧
    turn envLead reqEmptyText none = ⟨replyBlank, []⟩ :=
  ⟨(C9_input_errors_pure envLead reqNoContact none).1 (by decide),
   (C9_input_errors_pure envLead reqEmptyText none).2 (by decide) (by decide) (by decide)⟩

/-- C3: each turn issues at most one repair call beyond the primary oracle
call (at most two oracle invocations), and when both the primary and the
repair outputs fail to parse, the turn writes nothing to the store and —
whenever the oracle was consulted at all — returns the fixed safe fallback
reply. -/
theorem C3_repair_bounded_fallback (env : Env) (req : Req) (stored : Option Mem) :
    oracleCount (turn env req stored).trace ≤ 2 ∧
    (safeParseModelJson env.jparse env.oracleRaw = none →
     safeParseModelJson env.jparse env.repairRaw = none →
       saveStates (turn env req stored).trace = [] ∧
       (oracleCount (turn env req stored).trace ≠ 0 →
         (turn env req stored).reply = replyFallback)) := by
  rcases turn_effects env req stored with h|h|h|⟨u, -, h⟩
  · rw [h]; simp [oracleCount, saveStates]
  · rw [h]; simp [oracleCount, saveStates]
  · rw [h]; simp [oracleCount, saveStates]
  · rcases memStage_effects env (safeText req.contact_id) u stored with h2|h2
    · rw [h, h2]; simp [oracleCount, saveStates]
    · rcases oracleStage_effects env (safeText req.contact_id) u
          (preFill u (withPending (stored.getD defaultMemory))) with
        ⟨hp, hr, h3⟩|⟨p, hp, h3⟩|⟨p, hp, hr, h3⟩
      · rw [h, h2, h3]
        exact ⟨by simp [oracleCount, List.countP_append, List.countP_cons],
          fun _ _ => ⟨by simp [saveStates], fun _ => rfl⟩⟩
      · rw [h, h2, h3]
        constructor
        · rcases finishTurn_effects env (safeText req.contact_id) u
              (preFill u (withPending (stored.getD defaultMemory))) _ p with
            ⟨-, h4⟩|⟨-, -, h4⟩|⟨-, -, h4⟩ <;> rw [h4] <;>
            simp [oracleCount, List.countP_append, List.countP_cons]
        · intro hpn
          rw [hp] at hpn
          exact absurd hpn (by simp)
      · rw [h, h2, h3]
        constructor
        · rcases finishTurn_effects env (safeText req.contact_id) u
              (preFill u (withPending (stored.getD defaultMemory))) _ p with
            ⟨-, h4⟩|⟨-, -, h4⟩|⟨-, -, h4⟩ <;> rw [h4] <;>
            simp [oracleCount, List.countP_append, List.countP_cons]
        · intro hpn hrn
          rw [hr] at hrn
          exact absurd hrn (by simp)

theorem C3_repair_bounded_fallback_witness :
    saveStates (turn envBadJson reqLead none).trace = [] ∧
    (turn envBadJson reqLead none).reply = replyFallback :=
  have h := (C3_repair_bounded_fallback envBadJson reqLead none).2 (by decide) (by decide)
  ⟨h.1, h.2 (by decide)⟩

/-- C7: after every completed turn the persisted history has length at most
the clamp bound 12 and consists of the most recent entries in order — a suffix
of the prior history followed by this turn's user message and then the
assistant reply — and every history shown to the oracle is a suffix of the
prior history of length at most 10. -/
theorem C7_history_bounded (env : Env) (req : Req) (stored : Option Mem) :
    (∀ m ∈ saveStates (turn env req stored).trace,
      m.history.length ≤ 12 ∧
      ∃ pre u r, pre <:+ (stored.getD defaultMemory).history ∧
        m.history = pre ++ [⟨Role.user, u⟩, ⟨Role.assistant, r⟩]) ∧
    (∀ hist ∈ shownHistories (turn env req stored).trace,
      hist.length ≤ 10 ∧ hist <:+ (stored.getD defaultMemory).history) := by
  have hmem2 : ∀ u : String,
      (preFill u (withPending (stored.getD defaultMemory))).history =
        (stored.getD defaultMemory).history := fun u => preFill_history _ _
  have hclamp : (clampHistory (stored.getD defaultMemory).history 10).length ≤ 10 ∧
      clampHistory (stored.getD defaultMemory).history 10 <:+
        (stored.getD defaultMemory).history :=
    ⟨clampHistory_length_le _ 10 (by omega), clampHistory_suffix _ 10⟩
  have hnilsh : ([] : List Msg).length ≤ 10 ∧
      ([] : List Msg) <:+ (stored.getD defaultMemory).history :=
    ⟨by simp, List.nil_suffix⟩
  constructor
  · intro m hm
    rcases turn_effects env req stored with h|h|h|⟨u, -, h⟩
    · rw [h] at hm; simp [saveStates] at hm
    · rw [h] at hm; simp [saveStates] at hm
    · rw [h] at hm; simp [saveStates] at hm
    · rcases memStage_effects env (safeText req.contact_id) u stored with h2|h2
      · rw [h, h2] at hm; simp [saveStates] at hm
      · rw [h2] at h
        rcases oracleStage_effects env (safeText req.contact_id) u
            (preFill u (withPending (stored.getD defaultMemory))) with
          ⟨-, -, h3⟩|⟨p, -, h3⟩|⟨p, -, -, h3⟩
        · rw [h, h3] at hm; simp [saveStates] at hm
        all_goals (
          rw [h3] at h
          rw [h] at hm
          have hsv : (savedMem u (replyOf p)
                (preFill u (withPending (stored.getD defaultMemory))) p.state).history.length ≤ 12 ∧
              ∃ pre u' r', pre <:+ (stored.getD defaultMemory).history ∧
                (savedMem u (replyOf p)
                  (preFill u (withPending (stored.getD defaultMemory))) p.state).history =
                  pre ++ [⟨Role.user, u'⟩, ⟨Role.assistant, r'⟩] := by
            rw [savedMem_history, hmem2 u]
            refine ⟨clampHistory_length_le _ 12 (by omega), ?_⟩
            rw [clampHistory_append_two]
            exact ⟨_, u, replyOf p, List.drop_suffix _ _, rfl⟩
          rcases finishTurn_effects env (safeText req.contact_id) u
              (preFill u (withPending (stored.getD defaultMemory))) _ p with
            ⟨-, h4⟩|⟨-, -, h4⟩|⟨-, -, h4⟩ <;>
            rw [h4] at hm <;>
            simp only [saveStates, List.filterMap_append, List.filterMap_cons, List.filterMap_nil,
              evSaved_load, evSaved_oracle, evSaved_save, evSaved_notify, List.mem_append,
              List.mem_cons, List.not_mem_nil, or_false, false_or, List.mem_singleton] at hm <;>
            first
            | (rw [hm]; exact hsv)
            | (rcases hm with hm|hm <;> rw [hm] <;> exact hsv))
  · intro hist hm
    rcases turn_effects env req stored with h|h|h|⟨u, -, h⟩
    · rw [h] at hm; simp [shownHistories] at hm
    · rw [h] at hm; simp [shownHistories] at hm
    · rw [h] at hm; simp [shownHistories] at hm
    · rcases memStage_effects env (safeText req.contact_id) u stored with h2|h2
      · rw [h, h2] at hm; simp [shownHistories] at hm
      · rw [h2] at h
        rcases oracleStage_effects env (safeText req.contact_id) u
            (preFill u (withPending (stored.getD defaultMemory))) with
          ⟨-, -, h3⟩|⟨p, -, h3⟩|⟨p, -, -, h3⟩
        · rw [h3] at h
          rw [h] at hm
          rw [hmem2 u] at hm
          simp only [shownHistories, List.filterMap_cons, List.filterMap_nil, evShown_load,
            evShown_oracle, evShown_save, evShown_notify, List.mem_cons, List.not_mem_nil,
            or_false, List.mem_singleton] at hm
          rcases hm with hm|hm <;> rw [hm]
          · exact hclamp
          · exact hnilsh
        all_goals (
          rw [h3] at h
          rw [h] at hm
          rcases finishTurn_effects env (safeText req.contact_id) u
              (preFill u (withPending (stored.getD defaultMemory))) _ p with
            ⟨-, h4⟩|⟨-, -, h4⟩|⟨-, -, h4⟩ <;>
            rw [h4] at hm <;>
            rw [hmem2 u] at hm <;>
            simp only [shownHistories, List.filterMap_append, List.filterMap_cons,
              List.filterMap_nil, evShown_load, evShown_oracle, evShown_save, evShown_notify,
              List.mem_append, List.mem_cons, List.not_mem_nil, or_false, false_or,
              List.mem_singleton] at hm <;>
            first
            | (rw [hm]; exact hclamp)
            | (rcases hm with hm|hm <;> rw [hm] <;> first | exact hclamp | exact hnilsh))

theorem C7_history_bounded_witness :
    memLead5.history.length ≤ 12 ∧
    ∃ pre u r, pre <:+ (Option.getD (none : Option Mem) defaultMemory).history ∧
      memLead5.history = pre ++ [⟨Role.user, u⟩, ⟨Role.assistant, r⟩] :=
  (C7_history_bounded envLead reqLead none).1 memLead5 (by decide)

/-! ## Helper lemmas: notification structure -/

theorem notifyCount_append (a b : List Ev) :
    notifyCount (a ++ b) = notifyCount a + notifyCount b :=
  List.countP_append _ _ _

theorem hasNotify_iff_pos (tr : List Ev) : hasNotify tr = true ↔ 0 < notifyCount tr := by
  unfold hasNotify notifyCount
  rw [List.any_eq_true, List.countP_pos_iff]

theorem finishTurn_notify_struct (env : Env) (c u : String) (mem2 : Mem) (pre : List Ev)
    (p : ParsedModel) (hn : notifyCount pre = 0) (hs : saveStates pre = []) :
    (∃ m5, saveStates (finishTurn env c u mem2 pre p).trace = [m5] ∧
      notifyCount (finishTurn env c u mem2 pre p).trace = 0 ∧
      m5.admin_notified = mem2.admin_notified ∧
      ¬(leadCompleteB m5 = true ∧ m5.admin_notified = false)) ∨
    (∃ m5, saveStates (finishTurn env c u mem2 pre p).trace =
        [m5, { m5 with admin_notified := true }] ∧
      leadCompleteB m5 = true ∧ m5.admin_notified = false ∧
      m5.admin_notified = mem2.admin_notified ∧
      ((env.canNotify = true ∧ notifyCount (finishTurn env c u mem2 pre p).trace = 1 ∧
        ∃ s, (finishTurn env c u mem2 pre p).trace =
          pre ++ [Ev.save m5, Ev.save { m5 with admin_notified := true }, Ev.notify s]) ∨
       (env.canNotify = false ∧ notifyCount (finishTurn env c u mem2 pre p).trace = 0))) := by
  unfold notifyCount at hn
  unfold saveStates at hs
  rcases finishTurn_effects env c u mem2 pre p with ⟨hg, h4⟩|⟨hg, hcn, h4⟩|⟨hg, hcn, h4⟩
  · left
    refine ⟨savedMem u (replyOf p) mem2 p.state, ?_, ?_, savedMem_admin _ _ _ _, hg⟩
    · rw [h4]
      unfold saveStates
      simp [List.filterMap_append, hs]
    · rw [h4]
      unfold notifyCount
      simp [List.countP_append, List.countP_cons, hn]
  · right
    refine ⟨savedMem u (replyOf p) mem2 p.state, ?_, hg.1, hg.2, savedMem_admin _ _ _ _,
      Or.inl ⟨hcn, ?_, ?_⟩⟩
    · rw [h4]
      unfold saveStates
      simp [List.filterMap_append, hs]
    · rw [h4]
      unfold notifyCount
      simp [List.countP_append, List.countP_cons, hn]
    · exact ⟨_, by rw [h4]⟩
  · right
    refine ⟨savedMem u (replyOf p) mem2 p.state, ?_, hg.1, hg.2, savedMem_admin _ _ _ _,
      Or.inr ⟨hcn, ?_⟩⟩
    · rw [h4]
      unfold saveStates
      simp [List.filterMap_append, hs]
    · rw [h4]
      unfold notifyCount
      simp [List.countP_append, List.countP_cons, hn]

theorem turn_notify_struct (env : Env) (req : Req) (stored : Option Mem) :
    (notifyCount (turn env req stored).trace = 0 ∧
      saveStates (turn env req stored).trace = []) ∨
    (∃ m5, saveStates (turn env req stored).trace = [m5] ∧
      notifyCount (turn env req stored).trace = 0 ∧
      m5.admin_notified = (stored.getD defaultMemory).admin_notified ∧
      ¬(leadCompleteB m5 = true ∧ m5.admin_notified = false)) ∨
    (∃ m5, saveStates (turn env req stored).trace =
        [m5, { m5 with admin_notified := true }] ∧
      leadCompleteB m5 = true ∧ m5.admin_notified = false ∧
      m5.admin_notified = (stored.getD defaultMemory).admin_notified ∧
      ((env.canNotify = true ∧ notifyCount (turn env req stored).trace = 1 ∧
        ∃ pre s, (turn env req stored).trace =
          pre ++ [Ev.save m5, Ev.save { m5 with admin_notified := true }, Ev.notify s]) ∨
       (env.canNotify = false ∧ notifyCount (turn env req stored).trace = 0))) := by
  rcases turn_effects env req stored with h|h|h|⟨u, -, h⟩
  · left; rw [h]; exact ⟨rfl, rfl⟩
  · left; rw [h]; exact ⟨rfl, rfl⟩
  · left; rw [h]; exact ⟨rfl, rfl⟩
  · rcases memStage_effects env (safeText req.contact_id) u stored with h2|h2
    · left; rw [h, h2]; exact ⟨rfl, rfl⟩
    · rw [h2] at h
      rcases oracleStage_effects env (safeText req.contact_id) u
          (preFill u (withPending (stored.getD defaultMemory))) with
        ⟨-, -, h3⟩|⟨p, -, h3⟩|⟨p, -, -, h3⟩
      · left; rw [h, h3]; exact ⟨rfl, rfl⟩
      · rw [h3] at h
        have hadm : (preFill u (withPending (stored.getD defaultMemory))).admin_notified =
            (stored.getD defaultMemory).admin_notified := preFill_admin _ _
        have hstruct := finishTurn_notify_struct env (safeText req.contact_id) u
          (preFill u (withPending (stored.getD defaultMemory)))
          [Ev.load (safeText req.contact_id),
            Ev.oracle (clampHistory (preFill u (withPending (stored.getD defaultMemory))).history 10)]
          p (by rfl) (by rfl)
        rw [← h, hadm] at hstruct
        rcases hstruct with ⟨m5, hsv, hn, ha, hg⟩|⟨m5, hsv, hlc, hf, ha, hc⟩
        · right; left; exact ⟨m5, hsv, hn, ha, hg⟩
        · right; right
          refine ⟨m5, hsv, hlc, hf, ha, ?_⟩
          rcases hc with ⟨hcn, hn, s, heq⟩|⟨hcn, hn⟩
          · exact Or.inl ⟨hcn, hn, _, s, heq⟩
          · exact Or.inr ⟨hcn, hn⟩
      · rw [h3] at h
        have hadm : (preFill u (withPending (stored.getD defaultMemory))).admin_notified =
            (stored.getD defaultMemory).admin_notified := preFill_admin _ _
        have hstruct := finishTurn_notify_struct env (safeText req.contact_id) u
          (preFill u (withPending (stored.getD defaultMemory)))
          [Ev.load (safeText req.contact_id),
            Ev.oracle (clampHistory (preFill u (withPending (stored.getD defaultMemory))).history 10),
            Ev.oracle []]
          p (by rfl) (by rfl)
        rw [← h, hadm] at hstruct
        rcases hstruct with ⟨m5, hsv, hn, ha, hg⟩|⟨m5, hsv, hlc, hf, ha, hc⟩
        · right; left; exact ⟨m5, hsv, hn, ha, hg⟩
        · right; right
          refine ⟨m5, hsv, hlc, hf, ha, ?_⟩
          rcases hc with ⟨hcn, hn, s, heq⟩|⟨hcn, hn⟩
          · exact Or.inl ⟨hcn, hn, _, s, heq⟩
          · exact Or.inr ⟨hcn, hn⟩

theorem turn_notify_le_one (env : Env) (req : Req) (stored : Option Mem) :
    notifyCount (turn env req stored).trace ≤ 1 := by
  rcases turn_notify_struct env req stored with ⟨hn, -⟩|⟨m5, -, hn, -, -⟩|⟨m5, -, -, -, -, hc⟩
  · omega
  · omega
  · rcases hc with ⟨-, hn, -⟩|⟨-, hn⟩ <;> omega

theorem turn_notified_sticky (env : Env) (req : Req) (stored : Option Mem)
    (h : storedNotified stored = true) :
    notifyCount (turn env req stored).trace = 0 ∧
    storedNotified (stepMem stored (turn env req stored).trace) = true := by
  unfold storedNotified at h
  rcases turn_notify_struct env req stored with ⟨hn, hs⟩|⟨m5, hs, hn, hadm, -⟩|⟨m5, -, -, hf, hadm, -⟩
  · refine ⟨hn, ?_⟩
    unfold stepMem
    rw [hs]
    exact h
  · refine ⟨hn, ?_⟩
    unfold stepMem
    rw [hs]
    show storedNotified (some m5) = true
    show m5.admin_notified = true
    rw [hadm]
    exact h
  · rw [hadm, h] at hf
    exact absurd hf (by decide)

theorem turn_notify_sets (env : Env) (req : Req) (stored : Option Mem)
    (h : 0 < notifyCount (turn env req stored).trace) :
    storedNotified (stepMem stored (turn env req stored).trace) = true := by
  rcases turn_notify_struct env req stored with ⟨hn, -⟩|⟨m5, -, hn, -, -⟩|⟨m5, hs, -, -, -, -⟩
  · rw [hn] at h; exact absurd h (by decide)
  · rw [hn] at h; exact absurd h (by decide)
  · unfold stepMem
    rw [hs]
    show storedNotified (some { m5 with admin_notified := true }) = true
    rfl

theorem runTurns_notified_zero (inputs : List TurnIn) (stored : Option Mem)
    (h : storedNotified stored = true) : notifyCount (runTurns inputs stored) = 0 := by
  induction inputs generalizing stored with
  | nil => rfl
  | cons i rest ih =>
    unfold runTurns
    rw [notifyCount_append]
    have ht := turn_notified_sticky i.env i.req stored h
    rw [ht.1, ih _ ht.2]

theorem runTurns_le_one (inputs : List TurnIn) (stored : Option Mem) :
    notifyCount (runTurns inputs stored) ≤ 1 := by
  induction inputs generalizing stored with
  | nil => simp [runTurns, notifyCount]
  | cons i rest ih =>
    unfold runTurns
    rw [notifyCount_append]
    by_cases h : 0 < notifyCount (turn i.env i.req stored).trace
    · have h2 := runTurns_notified_zero rest _ (turn_notify_sets _ _ _ h)
      have h1 := turn_notify_le_one i.env i.req stored
      omega
    · have h1 : notifyCount (turn i.env i.req stored).trace = 0 := by omega
      rw [h1]
      simpa using ih (stepMem stored (turn i.env i.req stored).trace)

/-- C1 counterexample: on a turn started from the default state, the oracle
delta fills all three required slots and sets `cierre_enviado = true` while
leaving `cerrado` absent (so it stays `false`); the engine builds the summary
and attempts the delivery even though every persisted state of the turn has
`cerrado = false`, i.e. the claimed completion predicate
`closed ∧ closing_sent ∧ slots non-empty` does not hold. -/
theorem C1_counterexample :
    hasNotify (turn envLead reqLead none).trace = true ∧
    allSavesNotCerrado (turn envLead reqLead none).trace = true := by decide

/-- C1 (amended): the completion predicate the code fires on is
`closing_sent = true ∧ all required slots non-empty` — the `closed` flag is
not consulted.  With the notification transport configured, the lead summary
is built and a delivery attempted if and only if that predicate holds for the
reconciled state persisted this turn and the notified flag was not already
set. -/
theorem C1_notify_guard_amended (env : Env) (req : Req) (stored : Option Mem)
    (hcn : env.canNotify = true) :
    hasNotify (turn env req stored).trace = true ↔
      ∃ m ∈ saveStates (turn env req stored).trace,
        leadCompleteB m = true ∧ m.admin_notified = false := by
  rcases turn_notify_struct env req stored with
    ⟨hn, hs⟩|⟨m5, hs, hn, -, hguard⟩|⟨m5, hs, hlc, hf, -, hc⟩
  · rw [hs]
    constructor
    · intro hh
      rw [hasNotify_iff_pos, hn] at hh
      exact absurd hh (by decide)
    · rintro ⟨m, hm, -⟩
      exact absurd hm (List.not_mem_nil m)
  · rw [hs]
    constructor
    · intro hh
      rw [hasNotify_iff_pos, hn] at hh
      exact absurd hh (by decide)
    · rintro ⟨m, hm, hp⟩
      rw [List.mem_singleton] at hm
      subst hm
      exact absurd hp hguard
  · rw [hs]
    constructor
    · intro _h
      exact ⟨m5, List.mem_cons_self _ _, hlc, hf⟩
    · intro _h
      rcases hc with ⟨-, hn, -⟩|⟨hoff, -⟩
      · rw [hasNotify_iff_pos, hn]
        decide
      · rw [hoff] at hcn
        exact absurd hcn (by decide)

theorem C1_notify_guard_amended_witness :
    hasNotify (turn envLead reqLead none).trace = true :=
  (C1_notify_guard_amended envLead reqLead none rfl).mpr (by decide)

/-- C2: notification is at-most-once: within a turn the notified flag is
persisted `true` by a store write that precedes the delivery attempt; a turn
starting from a notified state performs no delivery and every state it writes
keeps the flag `true` (the flag never reverts); across any sequence of turns
for one contact at most one delivery attempt occurs; and the outcome of the
delivery call (success or failure) changes neither the reply nor the trace. -/
theorem C2_notification_at_most_once :
    (∀ (env : Env) (req : Req) (stored : Option Mem),
      hasNotify (turn env req stored).trace = true →
      ∃ pre m s, (turn env req stored).trace = pre ++ [Ev.save m, Ev.notify s] ∧
        m.admin_notified = true) ∧
    (∀ (env : Env) (req : Req) (stored : Option Mem),
      storedNotified stored = true →
      notifyCount (turn env req stored).trace = 0 ∧
      ∀ m ∈ saveStates (turn env req stored).trace, m.admin_notified = true) ∧
    (∀ (inputs : List TurnIn) (stored : Option Mem),
      notifyCount (runTurns inputs stored) ≤ 1) ∧
    (∀ (env : Env) (req : Req) (stored : Option Mem) (b : Bool),
      turn { env with sendOk := b } req stored = turn env req stored) := by
  refine ⟨?_, ?_, fun inputs stored => runTurns_le_one inputs stored,
    fun env req stored b => rfl⟩
  · intro env req stored hh
    rw [hasNotify_iff_pos] at hh
    rcases turn_notify_struct env req stored with
      ⟨hn, -⟩|⟨m5, -, hn, -, -⟩|⟨m5, -, -, -, -, hc⟩
    · rw [hn] at hh; exact absurd hh (by decide)
    · rw [hn] at hh; exact absurd hh (by decide)
    · rcases hc with ⟨-, -, pre0, s, heq⟩|⟨-, hn⟩
      · refine ⟨pre0 ++ [Ev.save m5], { m5 with admin_notified := true }, s, ?_, rfl⟩
        rw [heq]
        simp
      · rw [hn] at hh; exact absurd hh (by decide)
  · intro env req stored h
    have hA := h
    unfold storedNotified at hA
    rcases turn_notify_struct env req stored with
      ⟨hn, hs⟩|⟨m5, hs, hn, hadm, -⟩|⟨m5, -, -, hf, hadm, -⟩
    · refine ⟨hn, ?_⟩
      rw [hs]
      intro m hm
      exact absurd hm (List.not_mem_nil m)
    · refine ⟨hn, ?_⟩
      rw [hs]
      intro m hm
      rw [List.mem_singleton] at hm
      subst hm
      rw [hadm]
      exact hA
    · rw [hadm, hA] at hf
      exact absurd hf (by decide)

theorem C2_notification_at_most_once_witness :
    ∃ pre m s, (turn envLead reqLead none).trace = pre ++ [Ev.save m, Ev.notify s] ∧
      m.admin_notified = true :=
  C2_notification_at_most_once.1 envLead reqLead none (by decide)

/-- C10: when the transport is unconfigured no delivery is ever attempted in
the turn, and if a lead completes on such a turn the engine still persists
`notified = true`, so no notification is attempted for that contact on any
sequence of later turns even if the transport is configured then. -/
theorem C10_unconfigured_transport (env : Env) (req : Req) (stored : Option Mem)
    (inputs : List TurnIn) (hoff : env.canNotify = false) :
    notifyCount (turn env req stored).trace = 0 ∧
    ((∃ m ∈ saveStates (turn env req stored).trace,
        leadCompleteB m = true ∧ m.admin_notified = false) →
      (∃ m ∈ saveStates (turn env req stored).trace, m.admin_notified = true) ∧
      notifyCount (runTurns inputs (stepMem stored (turn env req stored).trace)) = 0) := by
  rcases turn_notify_struct env req stored with
    ⟨hn, hs⟩|⟨m5, hs, hn, -, hguard⟩|⟨m5, hs, hlc, hf, -, hc⟩
  · refine ⟨hn, ?_⟩
    rw [hs]
    rintro ⟨m, hm, -⟩
    exact absurd hm (List.not_mem_nil m)
  · refine ⟨hn, ?_⟩
    rw [hs]
    rintro ⟨m, hm, hp⟩
    rw [List.mem_singleton] at hm
    subst hm
    exact absurd hp hguard
  · have hn0 : notifyCount (turn env req stored).trace = 0 := by
      rcases hc with ⟨hcn, -⟩|⟨-, hn⟩
      · rw [hoff] at hcn; exact absurd hcn (by decide)
      · exact hn
    refine ⟨hn0, fun _ => ⟨?_, ?_⟩⟩
    · rw [hs]
      exact ⟨{ m5 with admin_notified := true },
        List.mem_cons_of_mem _ (List.mem_cons_self _ _), rfl⟩
    · apply runTurns_notified_zero
      unfold stepMem
      rw [hs]
      show storedNotified (some { m5 with admin_notified := true }) = true
      rfl

theorem C10_unconfigured_transport_witness :
    notifyCount (turn envLeadOff reqLead none).trace = 0 ∧
    (∃ m ∈ saveStates (turn envLeadOff reqLead none).trace, m.admin_notified = true) ∧
    notifyCount (runTurns [⟨envLead, reqLead⟩]
      (stepMem none (turn envLeadOff reqLead none).trace)) = 0 :=
  have h := C10_unconfigured_transport envLeadOff reqLead none [⟨envLead, reqLead⟩] rfl
  ⟨h.1, (h.2 (by decide)).1, (h.2 (by decide)).2⟩

end ZiaBot
